import Mathlib

/-!
Verification development for git-tidy (`main.go`), a command-line tool that
deletes local git branches whose GitHub pull requests have been merged.

The Go source is shallowly embedded: pure string processing is translated
directly; effects (environment variables, file reads, the system keyring,
subprocess output, HTTP lookups) are passed in explicitly as values or
result-returning functions, so every run of the embedded driver is a pure
function of the supplied environment.
-/

namespace GitTidy

/-! ## Credential resolver (`getGitHubToken`, main.go lines 32-77)

The file system, YAML parser and keyring are external collaborators; they
enter the embedding as an environment value.  `ConfigFile.unreadable` stands
for any failure of `os.ReadFile` on `hosts.yml` (a missing file, a
permission error, and also the earlier failure to locate a home directory,
each of which makes `getGitHubToken` return early with an error);
`ConfigFile.malformed` stands for a `yaml.Unmarshal` failure;
`ConfigFile.parsed hosts` is the decoded host-name-to-oauth-token mapping
(Go map keys are unique, modelled as an association list consulted with
`List.lookup`). -/

/-- Outcome of reading and decoding the gh `hosts.yml` configuration file. -/
inductive ConfigFile where
  | unreadable
  | malformed
  | parsed (hosts : List (String × String))
deriving DecidableEq

/-- Environment consulted by `getGitHubToken`: the two token environment
variables (Go's `os.Getenv` returns `""` for an unset variable), the config
file outcome, and the keyring lookup `keyring.Get("gh:github.com", "")`. -/
structure CredEnv where
  ghToken : String
  githubToken : String
  config : ConfigFile
  keyring : Except String String

/-- Final keyring step of `getGitHubToken` (main.go lines 71-76): if
`keyring.Get` succeeds with a non-empty token it is returned, otherwise the
terminal "no GitHub token found" error is produced. -/
def keyringFallback (k : Except String String) : Except String String :=
  match k with
  | Except.ok t =>
    if t != "" then Except.ok t
    else Except.error "no GitHub token found in gh config or keyring"
  | Except.error _ => Except.error "no GitHub token found in gh config or keyring"

/-- Embedding of `getGitHubToken` (main.go lines 32-77): `GH_TOKEN`, then
`GITHUB_TOKEN`, then the gh config file, then the keyring.  Note that a
config file that cannot be read or parsed makes the function return its
error immediately; the keyring is consulted only when the file decoded but
held no non-empty `oauth_token` for `github.com`. -/
def getGitHubToken (env : CredEnv) : Except String String :=
  if env.ghToken != "" then Except.ok env.ghToken
  else if env.githubToken != "" then Except.ok env.githubToken
  else
    match env.config with
    | ConfigFile.unreadable => Except.error "could not read gh config file"
    | ConfigFile.malformed => Except.error "could not parse gh config file"
    | ConfigFile.parsed hosts =>
      match List.lookup "github.com" hosts with
      | some tok => if tok != "" then Except.ok tok else keyringFallback env.keyring
      | none => keyringFallback env.keyring

/-- Concrete credential environment: no environment variables, an unreadable
config file, and a keyring that does hold a non-empty token. -/
def credEnvUnreadable : CredEnv :=
  CredEnv.mk "" "" ConfigFile.unreadable (Except.ok "keyring-token")

/-! ## Remote-URL parser (`parseGitHubRepo`, main.go lines 189-204)

The SSH rule uses the Go regular expression
`git@github\.com:([^/]+)/(.+?)(?:\.git)?$` with `FindStringSubmatch`, which
under Go's leftmost-first (Perl-like) semantics is a deterministic function
of the input, computed here directly: the match starts at the leftmost
position carrying the literal `git@github.com:`; `[^/]+` (which admits any
character but `/`, newline included) necessarily captures the maximal run up
to the first `/`; the lazy `(.+?)` takes the shortest non-empty tail
completion, so when the tail ends in `.git` and is longer than four
characters the optional group consumes that suffix and the capture is the
tail without it, otherwise the capture is the whole tail; `.` does not match
a newline, so a capture containing one is no match at all; `$` is end of
text. -/

-- Decidable equality for `Except`, used to evaluate the embedded
-- functions on concrete inputs.
deriving instance DecidableEq for Except

/-- The literal prefix of the SSH pattern, `git@github.com:` (15 characters). -/
def sshLit : List Char := "git@github.com:".toList

/-- True when the list ends with the four characters `.git`. -/
def endsDotGit (l : List Char) : Bool := List.isSuffixOf ".git".toList l

/-- True when the list contains no newline (Go's `.` does not match `\n`). -/
def noNewlineIn (l : List Char) : Bool := l.all (fun c => c != '\n')

/-- Outcome of attempting the SSH pattern at one fixed start position:
`some (owner, repo)` is the pair of captures of
`git@github\.com:([^/]+)/(.+?)(?:\.git)?$` anchored here. -/
def matchAt (l : List Char) : Option (List Char × List Char) :=
  if l.take 15 = sshLit then
    let rest := l.drop 15
    let owner := rest.takeWhile (fun c => c != '/')
    match rest.dropWhile (fun c => c != '/') with
    | [] => none
    | _ :: t =>
      if owner.isEmpty || t.isEmpty then none
      else if endsDotGit t ∧ 4 < t.length then
        if noNewlineIn (t.take (t.length - 4)) then some (owner, t.take (t.length - 4))
        else none
      else if noNewlineIn t then some (owner, t) else none
  else none

/-- Leftmost-first search of the SSH pattern: the captures at the first
position (scanning left to right) where `matchAt` succeeds. -/
def sshFind : List Char → Option (List Char × List Char)
  | [] => none
  | c :: t =>
    match matchAt (c :: t) with
    | some r => some r
    | none => sshFind t

/-- Go's `strings.TrimSuffix(s, ".git")`: removes one trailing `.git` when
present. -/
def trimSuffixDotGit (l : List Char) : List Char :=
  if List.isSuffixOf ".git".toList l then l.take (l.length - 4) else l

/-- Go's `strings.TrimPrefix(path, "/")`: removes one leading slash when
present. -/
def dropOneSlash (l : List Char) : List Char :=
  match l with
  | '/' :: t => t
  | _ => l

/-- Character admitted in a URL scheme by Go's `net/url` (`a-zA-Z0-9+-.`). -/
def isSchemeChar (c : Char) : Bool :=
  c.isAlpha || c.isDigit || c == '+' || c == '-' || c == '.'

/-- Userinfo stripping of Go's `net/url`: the host is the authority after
its last `@`. -/
def stripUserinfo (auth : List Char) : List Char :=
  (auth.reverse.takeWhile (fun c => c != '@')).reverse

/-- Scheme removal of Go's `net/url.getScheme`: when the text before the
first `:` is a non-empty run of scheme characters starting with a letter,
the remainder after that `:`; otherwise the whole input (no scheme). -/
def schemeRest (l : List Char) : List Char :=
  match l.takeWhile (fun c => c != ':'), l.dropWhile (fun c => c != ':') with
  | c :: cs, ':' :: r2 => if c.isAlpha && (c :: cs).all isSchemeChar then r2 else l
  | _, _ => l

/-- Character standing for a byte `net/url.Parse` rejects outright with
"invalid control character in URL": a byte below 0x20 or the byte 0x7f.  A
code point below 0x20 or equal to 0x7f encodes as exactly that byte, and no
other code point's UTF-8 bytes fall in that range, so the character-level
check coincides with Go's byte-level `stringContainsCTLByte`. -/
def isCTLChar (c : Char) : Bool := c.val < 32 || c.val == 127

/-- Model of the external collaborator `net/url.Parse` restricted to what
`parseGitHubRepo` consults, the pair `(u.Host, u.Path)`: `Parse` first cuts
the fragment at the first `#` and rejects any control byte before it; after
the optional scheme the input must open an authority with `//`; the
authority extends to the first `/`, `?` or `#`; the host is the authority
without userinfo; the path is what follows, cut before any query or
fragment.  Percent-escapes are outside this model (every theorem below
excludes `%` from its inputs); every input without a `//`-authority is
mapped to `none`, which `parseGitHubRepo` treats exactly as `net/url`
treats a parse error or an empty host. -/
def urlHostPath (l : List Char) : Option (List Char × List Char) :=
  if (l.takeWhile (fun c => c != '#')).any isCTLChar then none
  else
    match schemeRest l with
    | '/' :: '/' :: afterSlashes =>
      let auth := afterSlashes.takeWhile (fun c => c != '/' && c != '?' && c != '#')
      let restPath := afterSlashes.dropWhile (fun c => c != '/' && c != '?' && c != '#')
      some (stripUserinfo auth, restPath.takeWhile (fun c => c != '?' && c != '#'))
    | _ => none

/-- Embedding of `parseGitHubRepo` (main.go lines 189-204): first the SSH
rule (regex captures joined by `/` with `strings.TrimSuffix(matches[2],
".git")` applied to the second capture), then the generic-URL rule (host
must equal `github.com`; the path loses its leading `/` and one trailing
`.git`), else the "could not parse" error. -/
def parseGitHubRepo (remoteURL : String) : Except String String :=
  match sshFind remoteURL.toList with
  | some (owner, repo) =>
    Except.ok (List.asString (owner ++ '/' :: trimSuffixDotGit repo))
  | none =>
    match urlHostPath remoteURL.toList with
    | some (host, path) =>
      if host = "github.com".toList then
        Except.ok (List.asString (trimSuffixDotGit (dropOneSlash path)))
      else Except.error ("could not parse GitHub repo from URL: " ++ remoteURL)
    | none => Except.error ("could not parse GitHub repo from URL: " ++ remoteURL)

example : parseGitHubRepo "git@github.com:owner/repo.git" = Except.ok "owner/repo" := by decide
example : parseGitHubRepo "git@github.com:owner/repo" = Except.ok "owner/repo" := by decide
example : parseGitHubRepo "git@github.com:owner/name.git.git" = Except.ok "owner/name" := by decide
example : parseGitHubRepo "https://github.com/owner/repo.git" = Except.ok "owner/repo" := by decide
example : parseGitHubRepo "https://github.com" = Except.ok "" := by decide
example : parseGitHubRepo "https://gitlab.com/owner/repo" =
    Except.error "could not parse GitHub repo from URL: https://gitlab.com/owner/repo" := by decide
example : parseGitHubRepo "https://github.com/\t" =
    Except.error "could not parse GitHub repo from URL: https://github.com/\t" := by decide

/-! ## Branch discovery (`getLocalBranches`, main.go lines 160-176)

The subprocess `git branch --format=%(refname:short)` is an external
collaborator; its output enters the embedding as the sequence of lines the
`bufio.Scanner` produces. -/

/-- Whitespace as trimmed by Go's `strings.TrimSpace` (`unicode.IsSpace`),
restricted to the Latin-1 range: space, tab, newline, vertical tab, form
feed, carriage return, next line, and no-break space. -/
def goIsSpace (c : Char) : Bool :=
  c == ' ' || c == '\t' || c == '\n' || c == '\x0b' || c == '\x0c' ||
  c == '\r' || c == '\x85' || c == '\xa0'

/-- Go's `strings.TrimSpace`: leading and trailing whitespace removed. -/
def goTrim (s : String) : String :=
  List.asString (((s.toList.dropWhile goIsSpace).reverse.dropWhile goIsSpace).reverse)

/-- Embedding of the scanner loop of `getLocalBranches` (main.go lines
168-175): each line is trimmed and kept unless it is empty, `main`, or
`master`. -/
def getLocalBranchesLoop : List String → List String
  | [] => []
  | line :: rest =>
    let branch := goTrim line
    if branch != "" && branch != "main" && branch != "master" then
      branch :: getLocalBranchesLoop rest
    else getLocalBranchesLoop rest

/-- Modelled from the spec: `ListLocalBranches` as §4.1 words it — the
reported lines in order, whitespace-trimmed, with empty entries dropped and
exactly the names `main` and `master` excluded, every other name kept
verbatim. -/
def listLocalBranchesSpec (lines : List String) : List String :=
  (lines.map goTrim).filter (fun b => !(b == "" || b == "main" || b == "master"))

/-! ## Pull-request lookup (`findPRForBranch`, main.go lines 206-264)

The HTTP transport is an external collaborator.  What the source does with a
successful response body — decode a JSON sequence, return `nil` for an empty
sequence, otherwise map the first element's `number`, `state`, `merged_at`
and `head.ref` into a `PullRequest` — is embedded below; transport failures
and non-success statuses surface as `Except.error` values of the lookup
function handed to the driver. -/

/-- The `PullRequest` struct of main.go lines 21-26. -/
structure PullRequest where
  number : Nat
  state : String
  mergedAt : String
  headRefName : String
deriving DecidableEq

/-- One element of the decoded GitHub API response sequence (the anonymous
struct of main.go lines 240-247), with `headRef` for the nested `head.ref`. -/
structure APIPullRequest where
  number : Nat
  state : String
  merged_at : String
  headRef : String
deriving DecidableEq

/-- Embedding of the tail of `findPRForBranch` (main.go lines 255-264): an
empty decoded sequence means no pull request; otherwise the first element is
authoritative and is mapped field by field. -/
def findPRFromResponse (prs : List APIPullRequest) : Option PullRequest :=
  match prs with
  | [] => none
  | p :: _ => some (PullRequest.mk p.number p.state p.merged_at p.headRef)

/-- Replaces the lookup outcome of the single branch `b0`, leaving every
other branch's outcome unchanged: the driver environment in which one
branch's API response is swapped. -/
def substLookup (lookup : String → Except String (Option PullRequest)) (b0 : String)
    (r : Except String (Option PullRequest)) : String → Except String (Option PullRequest) :=
  fun b => if b == b0 then r else lookup b

/-! ## Reconciliation driver (`main`, main.go lines 79-158)

The driver's effects are captured in a trace: the exit status, the stdout
and stderr lines, whether the credential and repo-name steps were reached,
the branches looked up, the branches on which `deleteBranch` was invoked,
and the delete set.  `runMain` is a pure function of the run environment:
the argument list and the outcomes the collaborators would deliver. -/

/-- True for the arguments `--dry-run` and `-n` (main.go line 82). -/
def isDryRunArg (a : String) : Bool := a == "--dry-run" || a == "-n"

/-- True for the arguments `--help` and `-h` (main.go line 85). -/
def isHelpArg (a : String) : Bool := a == "--help" || a == "-h"

/-- True for the four arguments the loop of main.go lines 81-94 reacts to. -/
def recognizedArg (a : String) : Bool := isDryRunArg a || isHelpArg a

/-- The usage text printed for `--help` / `-h` (main.go lines 86-91). -/
def usageLines : List String :=
  ["Usage: git-tidy [--dry-run|-n]", "",
   "Deletes local branches whose PRs have been merged.", "",
   "Options:", "  --dry-run, -n  Show what would be deleted without deleting"]

/-- Environment of one driver run: the command-line arguments and the
outcomes of the collaborators (`getLocalBranches`, `getGitHubToken`,
`getRepoName`, `findPRForBranch` per branch, `deleteBranch` per branch). -/
structure RunEnv where
  args : List String
  branches : Except String (List String)
  token : Except String String
  repo : Except String String
  lookup : String → Except String (Option PullRequest)
  deleteRes : String → Except String Unit

/-- Observable trace of one driver run.  Fields: exit status, stdout lines,
stderr lines, whether `getGitHubToken` was called, whether `getRepoName`
was called, the branches passed to `findPRForBranch` in order, the branches
on which `deleteBranch` was invoked, the delete set `toDelete`, and the
per-branch classification report lines. -/
structure RunTrace where
  exitCode : Nat
  out : List String
  errOut : List String
  tokenAsked : Bool
  repoAsked : Bool
  lookups : List String
  deletes : List String
  toDelete : List String
  reports : List String
deriving DecidableEq

/-- Result of the classification loop of main.go lines 120-138: the report
lines, the accumulated `toDelete` set, and the branches looked up, each in
branch order. -/
structure ClassifyOut where
  reports : List String
  toDelete : List String
  lookups : List String
deriving DecidableEq

/-- Embedding of the classification loop (main.go lines 120-138): each
branch is looked up; a lookup error or an absent pull request is reported
and skipped; a match joins `toDelete` exactly when its `MergedAt` field is
non-empty. -/
def classifyLoop (lookup : String → Except String (Option PullRequest)) :
    List String → ClassifyOut
  | [] => ClassifyOut.mk [] [] []
  | b :: rest =>
    let r := classifyLoop lookup rest
    match lookup b with
    | Except.error e =>
      ClassifyOut.mk (("  " ++ b ++ ": error checking PR: " ++ e) :: r.reports)
        r.toDelete (b :: r.lookups)
    | Except.ok none =>
      ClassifyOut.mk (("  " ++ b ++ ": no PR found") :: r.reports) r.toDelete (b :: r.lookups)
    | Except.ok (some pr) =>
      if pr.mergedAt != "" then
        ClassifyOut.mk (("  " ++ b ++ ": PR #" ++ toString pr.number ++ " merged") :: r.reports)
          (b :: r.toDelete) (b :: r.lookups)
      else
        ClassifyOut.mk
          (("  " ++ b ++ ": PR #" ++ toString pr.number ++ " not merged (state: " ++
            pr.state ++ ")") :: r.reports)
          r.toDelete (b :: r.lookups)

/-- Embedding of the deletion loop (main.go lines 145-157): the delete-phase
output lines and the branches on which `deleteBranch` was invoked.  In
dry-run mode the intent is reported and `deleteBranch` is never called;
otherwise every branch is attempted and a failure is reported without
stopping the loop. -/
def deleteLoop (dryRun : Bool) (deleteRes : String → Except String Unit) :
    List String → List String × List String
  | [] => ([], [])
  | b :: rest =>
    let r := deleteLoop dryRun deleteRes rest
    if dryRun then (("  Would delete: " ++ b) :: r.1, r.2)
    else
      match deleteRes b with
      | Except.error e => (("  Error deleting " ++ b ++ ": " ++ e) :: r.1, b :: r.2)
      | Except.ok _ => (("  Deleted: " ++ b) :: r.1, b :: r.2)

/-- Core of `main` (main.go lines 79-158) once the argument loop has been
summarised by its two observable flags (`--help`/`-h` seen anywhere exits
with the usage text before any other work; `--dry-run`/`-n` seen anywhere
sets dry-run): branch discovery, the empty-list early return, credential
and repo-name resolution (each fatal with exit status 1), classification,
and the delete phase. -/
def runMainCore (helpFlag dryRun : Bool) (branches : Except String (List String))
    (token repo : Except String String)
    (lookup : String → Except String (Option PullRequest))
    (deleteRes : String → Except String Unit) : RunTrace :=
  if helpFlag then RunTrace.mk 0 usageLines [] false false [] [] [] []
  else
    match branches with
    | Except.error e =>
      RunTrace.mk 1 [] ["Error getting local branches: " ++ e] false false [] [] [] []
    | Except.ok bs =>
      if bs.isEmpty then
        RunTrace.mk 0 ["No branches to check (only main exists)"] [] false false [] [] [] []
      else
        let countLine := "Found " ++ toString bs.length ++ " branches to check"
        match token with
        | Except.error e =>
          RunTrace.mk 1 [countLine] ["Error getting GitHub token: " ++ e] true false [] [] [] []
        | Except.ok _ =>
          match repo with
          | Except.error e =>
            RunTrace.mk 1 [countLine] ["Error getting repo name: " ++ e] true true [] [] [] []
          | Except.ok _ =>
            let r := classifyLoop lookup bs
            if r.toDelete.isEmpty then
              RunTrace.mk 0 (countLine :: r.reports ++ ["", "No branches to delete"]) []
                true true r.lookups [] [] r.reports
            else
              let d := deleteLoop dryRun deleteRes r.toDelete
              RunTrace.mk 0
                (countLine :: r.reports ++
                  ["", "Branches to delete: " ++ toString r.toDelete.length] ++ d.1)
                [] true true r.lookups d.2 r.toDelete r.reports

/-- Embedding of `main` (main.go lines 79-158): the argument loop reduces to
the two any-flags, then `runMainCore` runs the pipeline on the environment's
collaborator outcomes. -/
def runMain (env : RunEnv) : RunTrace :=
  runMainCore (env.args.any isHelpArg) (env.args.any isDryRunArg)
    env.branches env.token env.repo env.lookup env.deleteRes

/-- Modelled from the spec: the fatal-failure condition of §6 — no help
request, and branch discovery fails outright, or branches exist and
credential or repository-name resolution fails. -/
def fatalRun (env : RunEnv) : Bool :=
  !env.args.any isHelpArg &&
    (match env.branches with
     | Except.error _ => true
     | Except.ok bs =>
       !bs.isEmpty &&
         ((match env.token with | Except.ok _ => false | Except.error _ => true) ||
          (match env.repo with | Except.ok _ => false | Except.error _ => true)))

/-- A merged pull request (non-empty merge timestamp) used by witnesses. -/
def prMerged : PullRequest := PullRequest.mk 42 "closed" "2024-05-01T10:00:00Z" "feature-a"

/-- An open, unmerged pull request used by witnesses. -/
def prOpen : PullRequest := PullRequest.mk 45 "open" "" "feature-c"

/-- Concrete lookup outcomes used by witnesses: `feature-a` has a merged
pull request, `feature-b` a failing lookup, `feature-c` an open pull
request, everything else no pull request. -/
def lookupW (b : String) : Except String (Option PullRequest) :=
  if b == "feature-a" then Except.ok (some prMerged)
  else if b == "feature-b" then Except.error "boom"
  else if b == "feature-c" then Except.ok (some prOpen)
  else Except.ok none

/-- Concrete run environment used by witnesses: a dry run over three
branches, one of which has a merged pull request. -/
def runEnvW : RunEnv :=
  RunEnv.mk ["--dry-run", "-x"] (Except.ok ["feature-a", "feature-b", "feature-c"])
    (Except.ok "tok") (Except.ok "owner/repo") lookupW (fun _ => Except.ok ())

/-- Concrete run environment used by witnesses: empty branch list while both
credential and repository-name resolution would fail. -/
def runEnvEmpty : RunEnv :=
  RunEnv.mk [] (Except.ok []) (Except.error "no token anywhere")
    (Except.error "no remote") (fun _ => Except.error "network down")
    (fun _ => Except.error "delete failed")

example : (runMain runEnvW).deletes = [] := by decide
example : (runMain runEnvW).toDelete = ["feature-a"] := by decide
example : (runMain runEnvEmpty).exitCode = 0 := by decide
example :
    (runMain (RunEnv.mk [] (Except.ok ["feature-a"]) (Except.ok "t") (Except.ok "o/r")
      lookupW (fun _ => Except.ok ()))).deletes = ["feature-a"] := by decide

/-! ## Helper lemmas -/

/-- Claim C1 counterexample: with both environment variables empty, an
unreadable gh config file, and a keyring that holds the non-empty token
`keyring-token`, `getGitHubToken` nevertheless fails — the keyring is never
consulted, refuting the claim that resolution falls through past a missing
or unreadable config file and fails only when all four sources are empty. -/
theorem c1_counterexample :
    getGitHubToken credEnvUnreadable = Except.error "could not read gh config file" ∧
      credEnvUnreadable.keyring = Except.ok "keyring-token" := by
  exact ⟨rfl, rfl⟩

/-- Claim C1 (amended): resolution tries the sources in order — the
primary environment variable's value is returned whenever it is non-empty
(nothing else consulted), else the secondary's whenever it is non-empty;
with both empty, a config file that is missing, unreadable, or malformed is
a terminal failure — resolution errors without consulting the keyring,
whatever the keyring holds; a parsed config's non-empty `github.com` token
is returned without consulting the keyring; and the keyring is consulted
exactly when the config file parses but carries no non-empty `github.com`
token, the run then succeeding or failing according to the keyring outcome
alone. -/
theorem c1_amended (g s : String) (c : ConfigFile) (k : Except String String) :
    (g ≠ "" → getGitHubToken (CredEnv.mk g s c k) = Except.ok g) ∧
    (g = "" → s ≠ "" → getGitHubToken (CredEnv.mk g s c k) = Except.ok s) ∧
    (g = "" → s = "" → (c = ConfigFile.unreadable ∨ c = ConfigFile.malformed) →
      ∃ msg, ∀ k2 : Except String String,
        getGitHubToken (CredEnv.mk g s c k2) = Except.error msg) ∧
    (g = "" → s = "" → ∀ hosts tok, c = ConfigFile.parsed hosts →
      List.lookup "github.com" hosts = some tok → tok ≠ "" →
      ∀ k2 : Except String String, getGitHubToken (CredEnv.mk g s c k2) = Except.ok tok) ∧
    (g = "" → s = "" → ∀ hosts, c = ConfigFile.parsed hosts →
      (List.lookup "github.com" hosts = none ∨ List.lookup "github.com" hosts = some "") →
      getGitHubToken (CredEnv.mk g s c k) = keyringFallback k) := by
  refine ⟨?_, ?_, ?_, ?_, ?_⟩
  · intro hg
    simp [getGitHubToken, hg]
  · intro hg hs
    simp [getGitHubToken, hg, hs]
  · rintro hg hs (hc | hc)
    · exact ⟨"could not read gh config file", fun k2 => by simp [getGitHubToken, hg, hs, hc]⟩
    · exact ⟨"could not parse gh config file", fun k2 => by simp [getGitHubToken, hg, hs, hc]⟩
  · intro hg hs hosts tok hc hl ht k2
    simp [getGitHubToken, hg, hs, hc, hl, ht]
  · rintro hg hs hosts hc (hl | hl) <;> simp [getGitHubToken, hg, hs, hc, hl]

/-- Claim C3 failing input: on `git@github.com:owner/name.git.git` the
parser returns `owner/name`, not the claimed `owner/name.git` — the regular
expression's optional `(?:\.git)?` group already consumed one suffix
(leaving capture `name.git`) and `strings.TrimSuffix(matches[2], ".git")`
then removed a second, so a repository really named `name.git` collapses to
the same identifier as one named `name`. -/
theorem c3_eval :
    parseGitHubRepo "git@github.com:owner/name.git.git" = Except.ok "owner/name" ∧
    parseGitHubRepo "git@github.com:owner/name.git" = Except.ok "owner/name" := by
  exact ⟨by decide, by decide⟩

/-! ## Claim C7 — branch discovery filtering -/

/-- Claim C7: the scanner loop of `getLocalBranches` equals the
specification's description — the reported lines in order, each trimmed,
with empty entries dropped and exactly `main` and `master` excluded, every
other trimmed name preserved verbatim. -/
theorem c7_branch_filter (lines : List String) :
    getLocalBranchesLoop lines = listLocalBranchesSpec lines := by
  induction lines with
  | nil => rfl
  | cons l rest ih =>
    have hcond : (goTrim l != "" && goTrim l != "main" && goTrim l != "master")
        = !(goTrim l == "" || goTrim l == "main" || goTrim l == "master") := by
      cases h1 : (goTrim l == "") <;> cases h2 : (goTrim l == "main") <;>
        cases h3 : (goTrim l == "master") <;> simp [bne, h1, h2, h3]
    simp only [getLocalBranchesLoop, listLocalBranchesSpec, List.map_cons, List.filter_cons]
      at ih ⊢
    rw [hcond, ih]

/-! ## Claim C8 — empty branch list short-circuits -/

/-- Claim C8: when branch discovery yields the empty list (and no help flag
is present), the run prints the notice and exits with status 0 without
calling the credential resolver, the repo-name resolver, any pull-request
lookup, or any deletion — whatever outcomes those collaborators would have
delivered. -/
theorem c8_empty_branches (env : RunEnv) (h1 : env.branches = Except.ok [])
    (h2 : env.args.any isHelpArg = false) :
    runMain env =
      RunTrace.mk 0 ["No branches to check (only main exists)"] [] false false [] [] [] [] := by
  unfold runMain runMainCore
  rw [h2, h1]
  rfl

/-- Claim C8 witness: the theorem applied to the concrete environment whose
credential and repo-name resolution would both fail. -/
theorem c8_empty_branches_witness :
    (runEnvEmpty.branches = Except.ok [] ∧ runEnvEmpty.args.any isHelpArg = false) ∧
    runMain runEnvEmpty =
      RunTrace.mk 0 ["No branches to check (only main exists)"] [] false false [] [] [] [] :=
  ⟨⟨rfl, rfl⟩, c8_empty_branches runEnvEmpty rfl rfl⟩

/-! ## Claim C9 — unrecognized arguments are ignored -/

/-- Filtering by a predicate implied by `p` does not change `List.any p`. -/
lemma any_filter_of_imp (l : List String) (q p : String → Bool)
    (hpq : ∀ a, p a = true → q a = true) : (l.filter q).any p = l.any p := by
  induction l with
  | nil => rfl
  | cons a t ih =>
    by_cases hq : q a = true
    · simp [List.filter_cons, hq, ih]
    · have hp : p a = false := by
        cases hpa : p a
        · rfl
        · exact absurd (hpq a hpa) hq
      simp [List.filter_cons, hq, hp, ih]

/-- Claim C9: the run behaves exactly as if every argument other than
`--dry-run`, `-n`, `--help`, `-h` had been removed from the argument list —
the whole observable trace is unchanged, including the destructive delete
flow. -/
theorem c9_unrecognized_args (env : RunEnv) :
    runMain env =
      runMain (RunEnv.mk (env.args.filter recognizedArg) env.branches env.token env.repo
        env.lookup env.deleteRes) := by
  unfold runMain
  have hh : (env.args.filter recognizedArg).any isHelpArg = env.args.any isHelpArg :=
    any_filter_of_imp _ _ _ (fun a ha => by simp [recognizedArg, ha])
  have hd : (env.args.filter recognizedArg).any isDryRunArg = env.args.any isDryRunArg :=
    any_filter_of_imp _ _ _ (fun a ha => by simp [recognizedArg, ha])
  simp only [hh, hd]

/-- Claim C9 witness: the theorem at the concrete dry-run environment whose
argument list carries the unrecognized argument `-x`. -/
theorem c9_unrecognized_args_witness :
    runMain runEnvW =
      runMain (RunEnv.mk (runEnvW.args.filter recognizedArg) runEnvW.branches runEnvW.token
        runEnvW.repo runEnvW.lookup runEnvW.deleteRes) :=
  c9_unrecognized_args runEnvW

/-! ## Claim C5 — exit status discipline -/

/-- Claim C5: the exit status is 1 exactly when (absent a help request)
branch discovery fails, or branches exist and credential or repo-name
resolution fails; in every fatal case no deletion was invoked; and the
status is otherwise 0 — per-branch lookup and per-branch deletion outcomes
never influence it. -/
theorem c5_exit_status (env : RunEnv) :
    ((runMain env).exitCode = 1 ↔ fatalRun env = true) ∧
    (fatalRun env = true → (runMain env).deletes = []) ∧
    ((runMain env).exitCode = 0 ∨ (runMain env).exitCode = 1) := by
  unfold runMain runMainCore fatalRun
  cases hh : env.args.any isHelpArg
  · cases hb : env.branches with
    | error e => simp
    | ok bs =>
      cases bs with
      | nil => simp
      | cons b bt =>
        cases ht : env.token with
        | error e => simp
        | ok tok =>
          cases hr : env.repo with
          | error e => simp
          | ok rp =>
            by_cases hd : (classifyLoop env.lookup (b :: bt)).toDelete.isEmpty <;> simp [hd]
  · simp

/-! ## Claim C4 — dry-run suppresses deletion -/

/-- In dry-run mode the deletion loop invokes `deleteBranch` on nothing. -/
lemma deleteLoop_dry (deleteRes : String → Except String Unit) :
    ∀ l : List String, (deleteLoop true deleteRes l).2 = [] := by
  intro l
  induction l with
  | nil => rfl
  | cons b t ih => simp [deleteLoop, ih]

/-- In dry-run mode the driver invokes `deleteBranch` on nothing, whatever
the pipeline outcomes. -/
lemma runMainCore_deletes_dry (hFlag : Bool) (branches : Except String (List String))
    (token repo : Except String String) (lookup : String → Except String (Option PullRequest))
    (deleteRes : String → Except String Unit) :
    (runMainCore hFlag true branches token repo lookup deleteRes).deletes = [] := by
  unfold runMainCore
  cases hFlag
  · cases branches with
    | error e => simp
    | ok bs =>
      cases bs with
      | nil => simp
      | cons b bt =>
        cases token with
        | error e => simp
        | ok tok =>
          cases repo with
          | error e => simp
          | ok rp =>
            by_cases hd : (classifyLoop lookup (b :: bt)).toDelete.isEmpty <;>
              simp [hd, deleteLoop_dry]
  · simp

/-- Every trace field other than the stdout lines and the delete calls is
independent of the dry-run flag. -/
lemma runMainCore_dry_indep (hFlag d1 d2 : Bool) (branches : Except String (List String))
    (token repo : Except String String) (lookup : String → Except String (Option PullRequest))
    (deleteRes : String → Except String Unit) :
    (runMainCore hFlag d1 branches token repo lookup deleteRes).toDelete
        = (runMainCore hFlag d2 branches token repo lookup deleteRes).toDelete ∧
    (runMainCore hFlag d1 branches token repo lookup deleteRes).reports
        = (runMainCore hFlag d2 branches token repo lookup deleteRes).reports ∧
    (runMainCore hFlag d1 branches token repo lookup deleteRes).lookups
        = (runMainCore hFlag d2 branches token repo lookup deleteRes).lookups ∧
    (runMainCore hFlag d1 branches token repo lookup deleteRes).exitCode
        = (runMainCore hFlag d2 branches token repo lookup deleteRes).exitCode ∧
    (runMainCore hFlag d1 branches token repo lookup deleteRes).errOut
        = (runMainCore hFlag d2 branches token repo lookup deleteRes).errOut := by
  unfold runMainCore
  cases hFlag
  · cases branches with
    | error e => simp
    | ok bs =>
      cases bs with
      | nil => simp
      | cons b bt =>
        cases token with
        | error e => simp
        | ok tok =>
          cases repo with
          | error e => simp
          | ok rp =>
            by_cases hd : (classifyLoop lookup (b :: bt)).toDelete.isEmpty <;> simp [hd]
  · simp

/-- Filtering out exactly the elements satisfying `p` makes `List.any p`
false. -/
lemma any_filter_not (l : List String) (p : String → Bool) :
    (l.filter (fun a => !p a)).any p = false := by
  induction l with
  | nil => rfl
  | cons a t ih =>
    cases hp : p a
    · simp [List.filter_cons, hp, ih]
    · simp [List.filter_cons, hp, ih]

/-- Claim C4: with `--dry-run` or `-n` among the arguments, `deleteBranch`
is never invoked — for every branch list and delete-set contents — while
the delete set, the per-branch report lines, the branches looked up, the
exit status and the error stream are identical to the same run with the
dry-run flags removed. -/
theorem c4_dry_run (env : RunEnv) (h : env.args.any isDryRunArg = true) :
    (runMain env).deletes = [] ∧
    (runMain env).toDelete = (runMain (RunEnv.mk (env.args.filter (fun a => !isDryRunArg a))
        env.branches env.token env.repo env.lookup env.deleteRes)).toDelete ∧
    (runMain env).reports = (runMain (RunEnv.mk (env.args.filter (fun a => !isDryRunArg a))
        env.branches env.token env.repo env.lookup env.deleteRes)).reports ∧
    (runMain env).lookups = (runMain (RunEnv.mk (env.args.filter (fun a => !isDryRunArg a))
        env.branches env.token env.repo env.lookup env.deleteRes)).lookups ∧
    (runMain env).exitCode = (runMain (RunEnv.mk (env.args.filter (fun a => !isDryRunArg a))
        env.branches env.token env.repo env.lookup env.deleteRes)).exitCode := by
  have hfh : (env.args.filter (fun a => !isDryRunArg a)).any isHelpArg
      = env.args.any isHelpArg := by
    apply any_filter_of_imp
    intro a ha
    have : a = "--help" ∨ a = "-h" := by
      simpa [isHelpArg] using ha
    rcases this with rfl | rfl <;> decide
  have hfd : (env.args.filter (fun a => !isDryRunArg a)).any isDryRunArg = false :=
    any_filter_not _ _
  unfold runMain
  simp only [h, hfh, hfd]
  have hind := runMainCore_dry_indep (env.args.any isHelpArg) true false env.branches
    env.token env.repo env.lookup env.deleteRes
  exact ⟨runMainCore_deletes_dry _ _ _ _ _ _, hind.1, hind.2.1, hind.2.2.1, hind.2.2.2.1⟩

/-- Claim C4 witness: the theorem at the concrete dry-run environment with a
non-empty delete set. -/
theorem c4_dry_run_witness :
    runEnvW.args.any isDryRunArg = true ∧
    ((runMain runEnvW).deletes = [] ∧
    (runMain runEnvW).toDelete = (runMain (RunEnv.mk
        (runEnvW.args.filter (fun a => !isDryRunArg a)) runEnvW.branches runEnvW.token
        runEnvW.repo runEnvW.lookup runEnvW.deleteRes)).toDelete ∧
    (runMain runEnvW).reports = (runMain (RunEnv.mk
        (runEnvW.args.filter (fun a => !isDryRunArg a)) runEnvW.branches runEnvW.token
        runEnvW.repo runEnvW.lookup runEnvW.deleteRes)).reports ∧
    (runMain runEnvW).lookups = (runMain (RunEnv.mk
        (runEnvW.args.filter (fun a => !isDryRunArg a)) runEnvW.branches runEnvW.token
        runEnvW.repo runEnvW.lookup runEnvW.deleteRes)).lookups ∧
    (runMain runEnvW).exitCode = (runMain (RunEnv.mk
        (runEnvW.args.filter (fun a => !isDryRunArg a)) runEnvW.branches runEnvW.token
        runEnvW.repo runEnvW.lookup runEnvW.deleteRes)).exitCode) :=
  ⟨by decide, c4_dry_run runEnvW (by decide)⟩

/-! ## Claim C6 — classification of lookup outcomes -/

/-- Every branch is passed to the lookup, in order, whatever the outcomes:
an error or a missing pull request never stops the loop. -/
lemma classifyLoop_lookups (lookup : String → Except String (Option PullRequest)) :
    ∀ branches : List String, (classifyLoop lookup branches).lookups = branches := by
  intro branches
  induction branches with
  | nil => rfl
  | cons b t ih =>
    unfold classifyLoop
    cases hb : lookup b with
    | error e => simp [ih]
    | ok o =>
      cases o with
      | none => simp [ih]
      | some pr => cases hm : (pr.mergedAt != "") <;> simp [hm, ih]

/-- Membership in the delete set characterised: a branch is in `toDelete`
exactly when it was discovered and its lookup returned a pull request with
a non-empty merge timestamp. -/
lemma mem_toDelete_iff (lookup : String → Except String (Option PullRequest)) (x : String) :
    ∀ branches : List String,
      x ∈ (classifyLoop lookup branches).toDelete ↔
        x ∈ branches ∧ ∃ pr : PullRequest, lookup x = Except.ok (some pr) ∧ pr.mergedAt ≠ "" := by
  intro branches
  induction branches with
  | nil => simp [classifyLoop]
  | cons b t ih =>
    unfold classifyLoop
    cases hb : lookup b with
    | error e =>
      simp only []
      rw [ih]
      constructor
      · rintro ⟨hx, hp⟩
        exact ⟨List.mem_cons_of_mem _ hx, hp⟩
      · rintro ⟨hx, pr2, hpr2, hm2⟩
        rcases List.mem_cons.mp hx with rfl | hx2
        · rw [hb] at hpr2
          exact Except.noConfusion hpr2
        · exact ⟨hx2, pr2, hpr2, hm2⟩
    | ok o =>
      cases o with
      | none =>
        simp only []
        rw [ih]
        constructor
        · rintro ⟨hx, hp⟩
          exact ⟨List.mem_cons_of_mem _ hx, hp⟩
        · rintro ⟨hx, pr2, hpr2, hm2⟩
          rcases List.mem_cons.mp hx with rfl | hx2
          · rw [hb] at hpr2
            exact Option.noConfusion (Except.ok.inj hpr2)
          · exact ⟨hx2, pr2, hpr2, hm2⟩
      | some pr =>
        cases hm : (pr.mergedAt != "")
        · simp only [hm]
          rw [if_neg Bool.false_ne_true]
          simp only []
          rw [ih]
          have hme : pr.mergedAt = "" := by
            simpa using hm
          constructor
          · rintro ⟨hx, hp⟩
            exact ⟨List.mem_cons_of_mem _ hx, hp⟩
          · rintro ⟨hx, pr2, hpr2, hm2⟩
            rcases List.mem_cons.mp hx with rfl | hx2
            · rw [hb] at hpr2
              obtain rfl : pr2 = pr := (Option.some.inj (Except.ok.inj hpr2)).symm
              exact absurd hme hm2
            · exact ⟨hx2, pr2, hpr2, hm2⟩
        · simp only [hm]
          simp only [if_true]
          have hmne : pr.mergedAt ≠ "" := by
            simpa using hm
          constructor
          · intro hx
            rcases List.mem_cons.mp hx with rfl | hx2
            · exact ⟨List.mem_cons_self _ _, pr, hb, hmne⟩
            · rcases ih.mp hx2 with ⟨hxt, hp⟩
              exact ⟨List.mem_cons_of_mem _ hxt, hp⟩
          · rintro ⟨hx, pr2, hpr2, hm2⟩
            rcases List.mem_cons.mp hx with rfl | hx2
            · exact List.mem_cons_self _ _
            · exact List.mem_cons_of_mem _ (ih.mpr ⟨hx2, pr2, hpr2, hm2⟩)

/-- Claim C6: a discovered branch whose lookup returns a match joins the
delete set exactly when the match's merge timestamp is non-empty; a branch
whose lookup errors or returns no match is never in the delete set; and
every branch is looked up, so the run continues past errors and misses. -/
theorem c6_classification (lookup : String → Except String (Option PullRequest))
    (branches : List String) (b bBad : String) (pr : PullRequest)
    (hmem : b ∈ branches) (hb : lookup b = Except.ok (some pr))
    (hbad : (∃ e, lookup bBad = Except.error e) ∨ lookup bBad = Except.ok none) :
    (b ∈ (classifyLoop lookup branches).toDelete ↔ pr.mergedAt ≠ "") ∧
    bBad ∉ (classifyLoop lookup branches).toDelete ∧
    (classifyLoop lookup branches).lookups = branches := by
  refine ⟨?_, ?_, classifyLoop_lookups lookup branches⟩
  · rw [mem_toDelete_iff]
    constructor
    · rintro ⟨-, pr2, hpr2, hm2⟩
      rw [hb] at hpr2
      obtain rfl : pr2 = pr := (Option.some.inj (Except.ok.inj hpr2)).symm
      exact hm2
    · intro hm
      exact ⟨hmem, pr, hb, hm⟩
  · rw [mem_toDelete_iff]
    rintro ⟨-, pr2, hpr2, -⟩
    rcases hbad with ⟨e, he⟩ | hnone
    · rw [he] at hpr2
      exact Except.noConfusion hpr2
    · rw [hnone] at hpr2
      exact Option.noConfusion (Except.ok.inj hpr2)

/-- Claim C6 witness: the theorem at the concrete lookup with a merged
match for `feature-a` and an erroring lookup for `feature-b`. -/
theorem c6_classification_witness :
    ("feature-a" ∈ ["feature-a", "feature-b", "feature-c"] ∧
      lookupW "feature-a" = Except.ok (some prMerged) ∧
      ((∃ e, lookupW "feature-b" = Except.error e) ∨ lookupW "feature-b" = Except.ok none)) ∧
    (("feature-a" ∈ (classifyLoop lookupW ["feature-a", "feature-b", "feature-c"]).toDelete ↔
        prMerged.mergedAt ≠ "") ∧
      "feature-b" ∉ (classifyLoop lookupW ["feature-a", "feature-b", "feature-c"]).toDelete ∧
      (classifyLoop lookupW ["feature-a", "feature-b", "feature-c"]).lookups =
        ["feature-a", "feature-b", "feature-c"]) :=
  ⟨⟨by decide, rfl, Or.inl ⟨"boom", rfl⟩⟩,
    c6_classification lookupW ["feature-a", "feature-b", "feature-c"] "feature-a" "feature-b"
      prMerged (by decide) rfl (Or.inl ⟨"boom", rfl⟩)⟩

/-! ## Claim C10 — verdicts never read the head-ref field -/

/-- Two lookup outcomes that agree on everything the driver reads: equal
errors, both no-match, or matches with equal number, state and merge
timestamp (the head-ref field free to differ). -/
def sameModuloHeadRef :
    Except String (Option PullRequest) → Except String (Option PullRequest) → Prop
  | Except.error e1, Except.error e2 => e1 = e2
  | Except.ok none, Except.ok none => True
  | Except.ok (some p), Except.ok (some q) =>
      p.number = q.number ∧ p.state = q.state ∧ p.mergedAt = q.mergedAt
  | _, _ => False

/-- Identical outcomes agree on everything the driver reads. -/
lemma sameModuloHeadRef_refl (r : Except String (Option PullRequest)) :
    sameModuloHeadRef r r := by
  rcases r with e | o
  · simp [sameModuloHeadRef]
  · cases o <;> simp [sameModuloHeadRef]

/-- Classification (reports, delete set and lookup order alike) depends on
the lookup outcomes only through the fields of `sameModuloHeadRef`. -/
lemma classifyLoop_congr (lk1 lk2 : String → Except String (Option PullRequest))
    (hsame : ∀ x, sameModuloHeadRef (lk1 x) (lk2 x)) :
    ∀ branches : List String, classifyLoop lk1 branches = classifyLoop lk2 branches := by
  intro branches
  induction branches with
  | nil => rfl
  | cons x xs ih =>
    unfold classifyLoop
    rw [ih]
    have hx := hsame x
    cases h1 : lk1 x with
    | error e1 =>
      cases h2 : lk2 x with
      | error e2 =>
        rw [h1, h2] at hx
        simp [sameModuloHeadRef] at hx
        rw [hx]
      | ok o2 =>
        rw [h1, h2] at hx
        cases o2 <;> simp [sameModuloHeadRef] at hx
    | ok o1 =>
      cases h2 : lk2 x with
      | error e2 =>
        rw [h1, h2] at hx
        cases o1 <;> simp [sameModuloHeadRef] at hx
      | ok o2 =>
        rw [h1, h2] at hx
        cases o1 with
        | none =>
          cases o2 with
          | none => rfl
          | some q => simp [sameModuloHeadRef] at hx
        | some p =>
          cases o2 with
          | none => simp [sameModuloHeadRef] at hx
          | some q =>
            simp only [sameModuloHeadRef] at hx
            simp [hx.1, hx.2.1, hx.2.2]

/-- Claim C10: for two successful API responses that differ only in the
first pull request's head-ref field, the whole classification — verdicts,
report lines, and the delete set — is identical, whatever the other
branches' outcomes. -/
theorem c10_headref_independent (a b : APIPullRequest) (rest : List APIPullRequest)
    (lookup : String → Except String (Option PullRequest)) (b0 : String)
    (branches : List String)
    (h1 : a.number = b.number) (h2 : a.state = b.state) (h3 : a.merged_at = b.merged_at) :
    classifyLoop (substLookup lookup b0 (Except.ok (findPRFromResponse (a :: rest)))) branches =
      classifyLoop (substLookup lookup b0 (Except.ok (findPRFromResponse (b :: rest)))) branches := by
  apply classifyLoop_congr
  intro x
  unfold substLookup
  by_cases hx : (x == b0) = true
  · simp only [hx, if_true]
    simp [findPRFromResponse, sameModuloHeadRef, h1, h2, h3]
  · simp only [hx]
    simp only [if_false, Bool.false_eq_true, reduceIte]
    exact sameModuloHeadRef_refl _

/-- First API response element with head ref `headA`, for the C10 witness. -/
def apiA : APIPullRequest := APIPullRequest.mk 7 "closed" "2024-01-02T00:00:00Z" "headA"

/-- The same response element except for its head ref, for the C10 witness. -/
def apiB : APIPullRequest := APIPullRequest.mk 7 "closed" "2024-01-02T00:00:00Z" "headB"

/-- Claim C10 witness: the theorem at two concrete one-element responses
differing only in the head-ref field. -/
theorem c10_headref_independent_witness :
    (apiA.number = apiB.number ∧ apiA.state = apiB.state ∧ apiA.merged_at = apiB.merged_at) ∧
    classifyLoop (substLookup lookupW "feature-c" (Except.ok (findPRFromResponse [apiA])))
        ["feature-a", "feature-c"] =
      classifyLoop (substLookup lookupW "feature-c" (Except.ok (findPRFromResponse [apiB])))
        ["feature-a", "feature-c"] :=
  ⟨⟨rfl, rfl, rfl⟩,
    c10_headref_independent apiA apiB [] lookupW "feature-c" ["feature-a", "feature-c"]
      rfl rfl rfl⟩
